import Mathlib

/-!
Verification of the todo-list widget (src/src/App.tsx).

The widget holds an in-memory list of todo items plus the text-input value, and
mutates them through three handlers (addTodo, toggleTodo, deleteTodo).  A small
bridge hook (useOpenAiGlobal) mirrors host-pushed global fields (theme, display
mode, ...) into view state, and requestFullscreen fires a host call.

The embedding below translates those handlers directly:
  - addTodo guards on the JS truthiness of inputValue.trim(), appends the item
    built from Date.now() and the raw (untrimmed) input, and clears the input;
  - toggleTodo maps over the list, flipping completed on id matches;
  - deleteTodo filters the list, keeping items whose id differs;
  - the footer computes the remaining count as todos.filter(t => not completed).length;
  - the bridge hook: the mount-time read guards on JS truthiness of the field,
    and the event handler guards on key membership in the payload.
JS values relevant to the bridge are modelled by JsValue (undefined, strings,
objects), with JS truthiness made explicit.
-/

namespace TodoWidget

/-- The field names of the OpenAiGlobals interface of App.tsx. -/
inductive GlobalKey where
  | toolInput
  | toolOutput
  | toolResponseMetadata
  | theme
  | displayMode
  | locale
  | userLocation
deriving DecidableEq, Repr

/-- A JS value as far as the bridge observes it: undefined, a string, or an
object reference (enough for the global fields the widget reads; an absent
property reads as undefined). -/
inductive JsValue where
  | jsUndefined
  | str (s : String)
  | obj (ref : Nat)
deriving DecidableEq, Repr

/-- JS truthiness of the values above: undefined is falsy, the empty string is
falsy, any other string and any object is truthy. -/
def truthy : JsValue → Bool
  | .jsUndefined => false
  | .str s => s != ""
  | .obj _ => true

/-- The mount-time read of useOpenAiGlobal in App.tsx:
if (window.openai and window.openai[key] is truthy) setValue(window.openai[key]);
the useState value starts as undefined, so after the effect the held value is
the field value when that value is truthy, and undefined otherwise (host object
absent, field absent, or field falsy). -/
def initialRead (openai : Option (GlobalKey → JsValue)) (key : GlobalKey) : JsValue :=
  match openai with
  | none => .jsUndefined
  | some g => if truthy (g key) then g key else .jsUndefined

/-- The openai:set_globals handler of useOpenAiGlobal in App.tsx: the payload
detail.globals is a partial record (some v means the key is present with value
v, where v may itself be the undefined value); if the key is present the held
value is replaced by the payload value unconditionally, otherwise it is kept. -/
def handleSetGlobals (payload : GlobalKey → Option JsValue) (key : GlobalKey)
    (held : JsValue) : JsValue :=
  match payload key with
  | some v => v
  | none => held

/-- Display-mode values of the OpenAiGlobals interface. -/
inductive DisplayMode where
  | inline
  | fullscreen
  | pip
deriving DecidableEq, Repr

/-- The rendering decision of App.tsx for the Expand button:
displayMode !== "fullscreen" guards the button, where none models the hook
still returning undefined. -/
def expandButtonVisible (displayMode : Option DisplayMode) : Bool :=
  displayMode != some DisplayMode.fullscreen

/-- The options record passed to window.openai.requestDisplayMode. -/
structure DisplayModeOptions where
  mode : DisplayMode
deriving DecidableEq, Repr

/-- The window.openai capability surface requestFullscreen touches: the
requestDisplayMode function is optional (some () when the host provides it). -/
structure OpenAiApi where
  requestDisplayMode : Option Unit
deriving DecidableEq, Repr

/-- requestFullscreen of App.tsx:
window.openai?.requestDisplayMode?.({ mode: "fullscreen" }).  The result is
the list of host calls issued; both optional-chaining guards make it a total
function (never throws), and the promise result is dropped (fire-and-forget),
so no value beyond the issued call exists. -/
def requestFullscreen (openai : Option OpenAiApi) : List DisplayModeOptions :=
  match openai with
  | none => []
  | some api =>
    match api.requestDisplayMode with
    | none => []
    | some _ => [{ mode := DisplayMode.fullscreen }]

/-- One todo record: interface TodoItem of App.tsx. -/
structure TodoItem where
  id : Nat
  text : String
  completed : Bool
deriving DecidableEq, Repr

/-- The view state the three handlers touch: the todos list and the input value. -/
structure AppState where
  todos : List TodoItem
  inputValue : String
deriving DecidableEq, Repr

/-- useState initial values: empty list, empty input. -/
def initialState : AppState := ⟨[], ""⟩

/-- JS String.prototype.trim: drop leading and trailing whitespace characters.
Modelled on the character list of the string so that it computes by kernel
reduction. -/
def jsTrim (s : String) : String :=
  ⟨((s.data.dropWhile Char.isWhitespace).reverse.dropWhile Char.isWhitespace).reverse⟩

/-- addTodo of App.tsx: if inputValue.trim() is truthy (a non-empty string),
append one item built from Date.now() (the now argument) and the raw input,
then clear the input; otherwise do nothing. -/
def addTodo (now : Nat) (s : AppState) : AppState :=
  if jsTrim s.inputValue ≠ "" then
    { s with
      todos := s.todos ++ [{ id := now, text := s.inputValue, completed := false }]
      inputValue := "" }
  else s

/-- toggleTodo of App.tsx: map over the list, flipping completed where the id
matches. -/
def toggleTodo (id : Nat) (todos : List TodoItem) : List TodoItem :=
  todos.map fun todo =>
    if todo.id = id then { todo with completed := !todo.completed } else todo

/-- deleteTodo of App.tsx: keep the items whose id differs from the argument. -/
def deleteTodo (id : Nat) (todos : List TodoItem) : List TodoItem :=
  todos.filter fun todo => todo.id != id

/-- The footer count of App.tsx: todos.filter(t => not t.completed).length. -/
def remainingCount (todos : List TodoItem) : Nat :=
  (todos.filter fun t => !t.completed).length

/-- One user-level operation on the todo view: typing a text and clicking Add
(with the Date.now() value observed at that click), toggling a checkbox, or
clicking Delete. -/
inductive TodoOp where
  | add (now : Nat) (input : String)
  | toggle (id : Nat)
  | remove (id : Nat)
deriving DecidableEq, Repr

/-- Apply one operation to the view state, exactly as the handlers do. -/
def applyOp (s : AppState) : TodoOp → AppState
  | .add now input => addTodo now { s with inputValue := input }
  | .toggle id => { s with todos := toggleTodo id s.todos }
  | .remove id => { s with todos := deleteTodo id s.todos }

/-- Run a sequence of operations from the initial state. -/
def runOps (ops : List TodoOp) : AppState := ops.foldl applyOp initialState

end TodoWidget

namespace TodoWidget

/-- C1: addTodo appends exactly one item with id = now, the raw untrimmed input
as text, completed = false, and clears the input, whenever the trimmed input is
non-empty; on an empty or whitespace-only input the whole state (in particular
the list) is unchanged. -/
theorem addTodo_correct (now : Nat) (s : AppState) :
    (jsTrim s.inputValue ≠ "" →
      (addTodo now s).todos =
        s.todos ++ [{ id := now, text := s.inputValue, completed := false }] ∧
      (addTodo now s).inputValue = "") ∧
    (jsTrim s.inputValue = "" → addTodo now s = s) := by
  constructor
  · intro h
    simp [addTodo, h]
  · intro h
    simp [addTodo, h]

/-- Witness for C1 at concrete inputs: adding with raw input " milk " (trimmed
form non-empty) appends the untrimmed item and clears the input, and adding
with whitespace-only input "  " leaves the state unchanged. -/
theorem addTodo_correct_witness :
    ((addTodo 7 ⟨[], " milk "⟩).todos = [⟨7, " milk ", false⟩] ∧
      (addTodo 7 ⟨[], " milk "⟩).inputValue = "") ∧
    addTodo 7 ⟨[⟨1, "a", false⟩], "  "⟩ = ⟨[⟨1, "a", false⟩], "  "⟩ := by
  refine ⟨?_, ?_⟩
  · exact (addTodo_correct 7 ⟨[], " milk "⟩).1 (by decide)
  · exact (addTodo_correct 7 ⟨[⟨1, "a", false⟩], "  "⟩).2 (by decide)

/-- Counting the items failing a predicate and those satisfying it partitions
the length of the list. -/
theorem countP_not_add (p : TodoItem → Bool) (l : List TodoItem) :
    l.countP (fun t => !(p t)) + l.countP p = l.length := by
  induction l with
  | nil => simp
  | cons t l ih => by_cases h : p t = true <;> simp [List.countP_cons, h] <;> omega

/-- C3 counterexample: deleteTodo removes every item whose id matches, not
exactly one.  On a list holding two items with id 5 (duplicate ids are possible
because ids come from Date.now()), deleting id 5 empties the list, so the
length does not drop by exactly one as the claim states. -/
theorem deleteTodo_exactly_one_counterexample :
    deleteTodo 5 [⟨5, "a", false⟩, ⟨5, "b", false⟩] = [] ∧
    ¬ (deleteTodo 5 [⟨5, "a", false⟩, ⟨5, "b", false⟩]).length =
        ([⟨5, "a", false⟩, ⟨5, "b", false⟩] : List TodoItem).length - 1 := by
  decide

/-- C3 amended: deleteTodo removes every item whose id matches the argument —
hence exactly one item when exactly one matches — keeps every item whose id
differs, and leaves the list unchanged when nothing matches. -/
theorem deleteTodo_correct (id : Nat) (l : List TodoItem) :
    ((l.countP fun t => t.id == id) = 0 → deleteTodo id l = l) ∧
    ((deleteTodo id l).countP fun t => t.id == id) = 0 ∧
    (∀ t, t ∈ l → t.id ≠ id → t ∈ deleteTodo id l) ∧
    ((l.countP fun t => t.id == id) = 1 → (deleteTodo id l).length + 1 = l.length) := by
  refine ⟨?_, ?_, ?_, ?_⟩
  · intro h
    refine List.filter_eq_self.mpr fun a ha => ?_
    have := List.countP_eq_zero.mp h a ha
    simpa using this
  · rw [List.countP_eq_zero]
    intro a ha
    rw [deleteTodo, List.mem_filter] at ha
    simpa using ha.2
  · intro t ht hne
    rw [deleteTodo, List.mem_filter]
    exact ⟨ht, by simpa using hne⟩
  · intro h
    have e : (deleteTodo id l).length = l.countP fun t => !(t.id == id) := by
      simp [deleteTodo, ← List.countP_eq_length_filter, bne]
    have hp := countP_not_add (fun t => t.id == id) l
    omega

/-- Witness for C3 (amended) at concrete inputs: deleting an absent id leaves
the list unchanged, and deleting the unique item with id 1 shrinks the list by
exactly one. -/
theorem deleteTodo_correct_witness :
    deleteTodo 9 [⟨1, "a", false⟩] = [⟨1, "a", false⟩] ∧
    (deleteTodo 1 [⟨1, "a", false⟩, ⟨2, "b", true⟩]).length + 1 =
      ([⟨1, "a", false⟩, ⟨2, "b", true⟩] : List TodoItem).length := by
  exact ⟨(deleteTodo_correct 9 [⟨1, "a", false⟩]).1 (by decide),
    (deleteTodo_correct 1 [⟨1, "a", false⟩, ⟨2, "b", true⟩]).2.2.2 (by decide)⟩

/-- C5: after every sequence of add/toggle/delete operations, the footer count
of items with completed = false equals the list length minus the number of
items with completed = true. -/
theorem remaining_count_invariant (ops : List TodoOp) :
    remainingCount (runOps ops).todos =
      (runOps ops).todos.length -
        ((runOps ops).todos.filter fun t => t.completed).length := by
  have h := countP_not_add (fun t : TodoItem => t.completed) (runOps ops).todos
  simp only [remainingCount, ← List.countP_eq_length_filter]
  omega

/-- C6: toggling the same id twice restores every completed flag (the whole
list, in fact), and toggling an id that matches no item leaves the list
unchanged by value. -/
theorem toggleTodo_involution (id : Nat) (l : List TodoItem) :
    toggleTodo id (toggleTodo id l) = l ∧
    ((∀ t ∈ l, t.id ≠ id) → toggleTodo id l = l) := by
  constructor
  · induction l with
    | nil => rfl
    | cons t l ih =>
      obtain ⟨ti, ts, tc⟩ := t
      by_cases h : ti = id <;>
        simp only [toggleTodo, List.map_cons] at ih ⊢ <;>
        simp [h, Bool.not_not, ih]
  · intro hall
    induction l with
    | nil => rfl
    | cons t l ih =>
      simp only [toggleTodo, List.map_cons]
      rw [if_neg (hall t (by simp))]
      have e := ih fun a ha => hall a (by simp [ha])
      simp only [toggleTodo] at e
      rw [e]

/-- Witness for C6 at concrete inputs: double-toggling id 1 restores the list,
and toggling the absent id 9 changes nothing. -/
theorem toggleTodo_involution_witness :
    toggleTodo 1 (toggleTodo 1 [⟨1, "a", false⟩, ⟨2, "b", true⟩]) =
      [⟨1, "a", false⟩, ⟨2, "b", true⟩] ∧
    toggleTodo 9 [⟨1, "a", false⟩] = [⟨1, "a", false⟩] := by
  exact ⟨(toggleTodo_involution 1 [⟨1, "a", false⟩, ⟨2, "b", true⟩]).1,
    (toggleTodo_involution 9 [⟨1, "a", false⟩]).2 (by decide)⟩

/-- C9: toggleTodo preserves the length and the position of every item, leaves
the id and text of every item unchanged, and leaves every item whose id differs
from the argument entirely unchanged. -/
theorem toggleTodo_frame (id : Nat) (l : List TodoItem) :
    (toggleTodo id l).length = l.length ∧
    (∀ i : Nat, ((toggleTodo id l)[i]?).map TodoItem.id = (l[i]?).map TodoItem.id) ∧
    (∀ i : Nat, ((toggleTodo id l)[i]?).map TodoItem.text = (l[i]?).map TodoItem.text) ∧
    (∀ i : Nat, ∀ t : TodoItem, l[i]? = some t → t.id ≠ id →
      (toggleTodo id l)[i]? = some t) := by
  refine ⟨by simp [toggleTodo], ?_, ?_, ?_⟩
  · intro i
    cases h : l[i]? with
    | none => simp [toggleTodo, List.getElem?_map, h]
    | some t => by_cases ht : t.id = id <;> simp [toggleTodo, List.getElem?_map, h, ht]
  · intro i
    cases h : l[i]? with
    | none => simp [toggleTodo, List.getElem?_map, h]
    | some t => by_cases ht : t.id = id <;> simp [toggleTodo, List.getElem?_map, h, ht]
  · intro i t h ht
    simp [toggleTodo, List.getElem?_map, h, ht]

/-- Witness for C9 at a concrete input: toggling id 1 leaves the item with
id 2 untouched at its position. -/
theorem toggleTodo_frame_witness :
    (toggleTodo 1 [⟨1, "a", false⟩, ⟨2, "b", true⟩])[1]? = some ⟨2, "b", true⟩ := by
  exact (toggleTodo_frame 1 [⟨1, "a", false⟩, ⟨2, "b", true⟩]).2.2.2 1
    ⟨2, "b", true⟩ rfl (by decide)

/-- C10: on a list holding at least two items with the same id (possible since
ids come from Date.now()), toggleTodo with that id flips the completed flag of
every matching item, not just one. -/
theorem toggleTodo_flips_all_duplicates (id : Nat) (l : List TodoItem)
    (_hdup : 2 ≤ l.countP fun t => t.id == id) :
    ∀ i : Nat, ∀ t : TodoItem, l[i]? = some t → t.id = id →
      (toggleTodo id l)[i]? = some { t with completed := !t.completed } := by
  intro i t h ht
  simp [toggleTodo, List.getElem?_map, h, ht]

/-- Witness for C10: two adds within the same Date.now() tick (value 5) build a
list with duplicate id 5; toggling id 5 flips both items. -/
theorem toggleTodo_flips_all_duplicates_witness :
    (toggleTodo 5 (runOps [TodoOp.add 5 "a", TodoOp.add 5 "b"]).todos)[0]? =
        some ⟨5, "a", true⟩ ∧
    (toggleTodo 5 (runOps [TodoOp.add 5 "a", TodoOp.add 5 "b"]).todos)[1]? =
        some ⟨5, "b", true⟩ := by
  constructor
  · exact toggleTodo_flips_all_duplicates 5
      (runOps [TodoOp.add 5 "a", TodoOp.add 5 "b"]).todos (by decide) 0
      ⟨5, "a", false⟩ (by decide) rfl
  · exact toggleTodo_flips_all_duplicates 5
      (runOps [TodoOp.add 5 "a", TodoOp.add 5 "b"]).todos (by decide) 1
      ⟨5, "b", false⟩ (by decide) rfl

/-- C2: the openai:set_globals handler replaces the held value whenever the
subscribed key is present in the payload, including when the payload value is
falsy or the undefined value, and keeps the held value whenever the key is
absent from the payload. -/
theorem useOpenAiGlobal_update (payload : GlobalKey → Option JsValue)
    (key : GlobalKey) (held : JsValue) :
    (∀ v, payload key = some v → handleSetGlobals payload key held = v) ∧
    (payload key = none → handleSetGlobals payload key held = held) := by
  constructor
  · intro v hv
    simp [handleSetGlobals, hv]
  · intro hv
    simp [handleSetGlobals, hv]

/-- Witness for C2 at concrete inputs: a payload carrying theme = "dark"
replaces the held undefined value with "dark"; a payload without the theme key
keeps the held "dark"; a payload carrying the key with the undefined value
replaces a truthy held value with undefined. -/
theorem useOpenAiGlobal_update_witness :
    handleSetGlobals
        (fun k => if k = GlobalKey.theme then some (JsValue.str "dark") else none)
        GlobalKey.theme JsValue.jsUndefined = JsValue.str "dark" ∧
    handleSetGlobals (fun _ => none) GlobalKey.theme (JsValue.str "dark") =
      JsValue.str "dark" ∧
    handleSetGlobals
        (fun k => if k = GlobalKey.locale then some JsValue.jsUndefined else none)
        GlobalKey.locale (JsValue.str "en") = JsValue.jsUndefined := by
  refine ⟨?_, ?_, ?_⟩
  · exact (useOpenAiGlobal_update
      (fun k => if k = GlobalKey.theme then some (JsValue.str "dark") else none)
      GlobalKey.theme JsValue.jsUndefined).1 (JsValue.str "dark") rfl
  · exact (useOpenAiGlobal_update (fun _ => none) GlobalKey.theme
      (JsValue.str "dark")).2 rfl
  · exact (useOpenAiGlobal_update
      (fun k => if k = GlobalKey.locale then some JsValue.jsUndefined else none)
      GlobalKey.locale (JsValue.str "en")).1 JsValue.jsUndefined rfl

/-- C4 counterexample: the mount-time read checks JS truthiness, not presence.
With a host object whose locale field is present but holds the empty string (a
falsy value), the initial value stays undefined instead of becoming that
present value. -/
theorem initialRead_counterexample :
    initialRead
        (some fun k => if k = GlobalKey.locale then JsValue.str "" else JsValue.jsUndefined)
        GlobalKey.locale = JsValue.jsUndefined ∧
    ¬ initialRead
        (some fun k => if k = GlobalKey.locale then JsValue.str "" else JsValue.jsUndefined)
        GlobalKey.locale = JsValue.str "" := by
  constructor <;> decide

/-- C4 amended: on first use the hook reads the field from the host object
exactly when the host object is present and the field value is truthy; when the
host object is absent, or the field is absent or holds a falsy value (such as
the empty string), the initial value is undefined. -/
theorem initialRead_correct (openai : Option (GlobalKey → JsValue)) (key : GlobalKey) :
    (openai = none → initialRead openai key = JsValue.jsUndefined) ∧
    (∀ g, openai = some g → truthy (g key) = true → initialRead openai key = g key) ∧
    (∀ g, openai = some g → truthy (g key) = false →
      initialRead openai key = JsValue.jsUndefined) := by
  refine ⟨?_, ?_, ?_⟩
  · rintro rfl
    rfl
  · rintro g rfl h
    simp [initialRead, h]
  · rintro g rfl h
    simp [initialRead, h]

/-- Witness for C4 (amended) at concrete inputs: absent host gives undefined,
a truthy theme "dark" is read, and a falsy empty-string locale is not read. -/
theorem initialRead_correct_witness :
    initialRead none GlobalKey.theme = JsValue.jsUndefined ∧
    initialRead (some fun _ => JsValue.str "dark") GlobalKey.theme =
      JsValue.str "dark" ∧
    initialRead (some fun _ => JsValue.str "") GlobalKey.locale = JsValue.jsUndefined := by
  exact ⟨(initialRead_correct none GlobalKey.theme).1 rfl,
    (initialRead_correct (some fun _ => JsValue.str "dark") GlobalKey.theme).2.1
      (fun _ => JsValue.str "dark") rfl (by decide),
    (initialRead_correct (some fun _ => JsValue.str "") GlobalKey.locale).2.2
      (fun _ => JsValue.str "") rfl (by decide)⟩

/-- C7: the Expand control is hidden exactly when the display mode is
"fullscreen"; every other value, undefined included, shows it. -/
theorem expand_control_visibility :
    expandButtonVisible (some DisplayMode.fullscreen) = false ∧
    ∀ d : Option DisplayMode, d ≠ some DisplayMode.fullscreen →
      expandButtonVisible d = true := by
  constructor
  · rfl
  · intro d hd
    simpa [expandButtonVisible, bne_iff_ne] using hd

/-- Witness for C7 at concrete inputs: undefined, inline and pip all show the
control. -/
theorem expand_control_visibility_witness :
    expandButtonVisible none = true ∧
    expandButtonVisible (some DisplayMode.inline) = true ∧
    expandButtonVisible (some DisplayMode.pip) = true := by
  exact ⟨expand_control_visibility.2 none (by decide),
    expand_control_visibility.2 (some DisplayMode.inline) (by decide),
    expand_control_visibility.2 (some DisplayMode.pip) (by decide)⟩

/-- C8: requestFullscreen issues no host call when window.openai or its
requestDisplayMode function is absent (and, being a total function, never
throws), and issues exactly the call with mode = fullscreen when both are
present; no result is surfaced beyond the issued call. -/
theorem requestFullscreen_guarded (openai : Option OpenAiApi) :
    (openai = none → requestFullscreen openai = []) ∧
    (∀ api, openai = some api → api.requestDisplayMode = none →
      requestFullscreen openai = []) ∧
    (∀ api, openai = some api → api.requestDisplayMode.isSome →
      requestFullscreen openai = [{ mode := DisplayMode.fullscreen }]) := by
  refine ⟨?_, ?_, ?_⟩
  · rintro rfl
    rfl
  · rintro api rfl h
    simp [requestFullscreen, h]
  · rintro api rfl h
    obtain ⟨u, hu⟩ := Option.isSome_iff_exists.mp h
    simp [requestFullscreen, hu]

/-- Witness for C8 at concrete inputs: absent host object, host object without
requestDisplayMode, and host object with it. -/
theorem requestFullscreen_guarded_witness :
    requestFullscreen none = [] ∧
    requestFullscreen (some ⟨none⟩) = [] ∧
    requestFullscreen (some ⟨some ()⟩) = [⟨DisplayMode.fullscreen⟩] := by
  exact ⟨(requestFullscreen_guarded none).1 rfl,
    (requestFullscreen_guarded (some ⟨none⟩)).2.1 ⟨none⟩ rfl rfl,
    (requestFullscreen_guarded (some ⟨some ()⟩)).2.2 ⟨some ()⟩ rfl rfl⟩

end TodoWidget
